import Mathlib

/-!
# Verification of the ComfyUI serverless job handler (`comfyu/handler.py`)

Shallow embedding of the handler module: the workflow-rewrite step, the
image uploader, the job submitter, the result poller, the output collector
and the `handler` entrypoint.  External collaborators (the `requests`
library, the `base64` decoder, the filesystem) are modelled as an explicit
environment `Env` of response functions; time in the polling loop is
modelled discretely, one tick per `POLL_INTERVAL` (0.5 s) sleep.

Python values that the code inspects are modelled just as finely as the
code distinguishes them: a workflow node is either a dict (with an optional
`class_type` entry and an optional `inputs` dict) or some other value
(`isinstance(node, dict)` fails); a field value is either a string or an
opaque non-string value (only string equality against filenames matters).
Absent JSON keys read through `.get(k, default)` are modelled by `Option`
with the corresponding default.
-/

/-- A value stored in a node's `inputs` dict: a string, or an opaque
non-string value (the code only ever compares such values with string
literals, where a non-string always compares unequal). -/
inductive FieldVal where
  | str (s : String)
  | other (tag : Nat)
deriving DecidableEq, Repr

/-- A workflow-graph node as `handler` sees it: either a Python dict with an
optional `"class_type"` entry and an optional `"inputs"` dict, or a
non-dict value (skipped by the `isinstance(node, dict)` guard). -/
inductive Node where
  | dict (class_type : Option FieldVal) (inputs : Option (List (String × FieldVal)))
  | other (tag : Nat)
deriving DecidableEq, Repr

/-- A workflow graph: mapping from node identifier to node
(`workflow : dict` in the Python code; insertion order of a Python dict is
the list order here). -/
abbrev Graph := List (String × Node)

/-- `d.get(key)` on a Python dict modelled as an association list. -/
def getField : List (String × FieldVal) → String → Option FieldVal
  | [], _ => none
  | (k, v) :: rest, key => if k = key then some v else getField rest key

/-- `d[key] = val` on a Python dict when `key` is already present (the
rewriter only assigns to `"image"` after observing its current value): the
value at `key` is replaced in place. -/
def setField : List (String × FieldVal) → String → FieldVal → List (String × FieldVal)
  | [], _, _ => []
  | (k, v) :: rest, key, val =>
      if k = key then (k, val) :: setField rest key val
      else (k, v) :: setField rest key val

/-- One iteration of the rewrite loop body in `handler`, for one node:
```python
if isinstance(node, dict):
    if node.get("class_type") == "LoadImage":
        inputs = node.get("inputs", {})
        if inputs.get("image") == filename or inputs.get("image") == "input_image.jpg":
            inputs["image"] = uploaded_name
```
When the node has no `"inputs"` key, `node.get("inputs", {})` yields a
fresh dict whose mutation is lost, so the node stays unchanged — hence the
`Option.map` on `inputs` (the guard is anyway unsatisfiable then). -/
def rewriteNode (filename uploaded_name : String) : Node → Node
  | Node.other t => Node.other t
  | Node.dict ct inputs =>
      if ct = some (FieldVal.str "LoadImage") ∧
          (getField (inputs.getD []) "image" = some (FieldVal.str filename) ∨
           getField (inputs.getD []) "image" = some (FieldVal.str "input_image.jpg")) then
        Node.dict ct (inputs.map (fun fields => setField fields "image" (FieldVal.str uploaded_name)))
      else
        Node.dict ct inputs

/-- The whole rewrite loop `for node in workflow.values(): ...` — node keys
are untouched, every value passes through `rewriteNode`. -/
def rewriteGraph (filename uploaded_name : String) (workflow : Graph) : Graph :=
  workflow.map (fun p => (p.1, rewriteNode filename uploaded_name p.2))

/-- Whether a node is tagged as an image-loading node: a dict whose
`class_type` entry is the string `"LoadImage"`. -/
def isLoadImage : Node → Bool
  | Node.dict ct _ => decide (ct = some (FieldVal.str "LoadImage"))
  | Node.other _ => false

-- ### Data model for HTTP collaborators, history records and outputs

/-- One element of a history record's `images`/`videos` list:
`{"filename": ..., "subfolder": ...?}` (the code reads `filename` by
subscript and `subfolder` through `.get(..., "")`). -/
structure FileRef where
  filename : String
  subfolder : Option String
deriving DecidableEq, Repr

/-- One node's entry in `history["outputs"]`: the `images` and `videos`
lists (each read through `.get(..., [])`, so an absent key is `[]`). -/
structure NodeOutput where
  images : List FileRef
  videos : List FileRef
deriving DecidableEq, Repr

/-- The history entry for one prompt id: `{"outputs": {node_id: ...}}`
(read through `.get("outputs", {})`, so an absent key is the empty map). -/
structure HistRecord where
  outputs : List (String × NodeOutput)
deriving DecidableEq, Repr

/-- A response of `GET /history/{prompt_id}`: an HTTP status code and the
JSON body, a map from prompt id to history record. -/
structure HistResp where
  status : Nat
  body : List (String × HistRecord)
deriving Repr

/-- One output artifact as appended by `collect_outputs`:
`{"filename": ..., "type": "base64", "format": ..., "data": ...}`. -/
structure Artifact where
  filename : String
  type : String
  format : String
  data : String
deriving DecidableEq, Repr

/-- A network request issued by the handler (recorded as an explicit trace
so that claims about «no network call» are statable). -/
inductive NetCall where
  | uploadImage (filename : String) (bytes : List Nat)
  | queuePrompt (workflow : Graph)
  | getHistory (prompt_id : String)
deriving DecidableEq, Repr

/-- One element of `job["input"]["images"]`: `.get("name", ...)` and
`.get("image", "")` model absent keys as `none`. -/
structure ImageObj where
  name : Option String
  image : Option String
deriving Repr

/-- `job["input"]`: the workflow (absent key = `none`; the code's falsiness
check also rejects the empty dict, modelled as `some []`) and the image
list (`.get("images", [])`). -/
structure JobInput where
  workflow : Option Graph
  images : List ImageObj
deriving Repr

/-- A job object as delivered by the queue framework. -/
structure Job where
  input : JobInput
deriving Repr

/-- The external world as the handler observes it: the base64 decoder
(`none` = `binascii.Error` raised), the upload endpoint's answer to a
(filename, bytes) request (`Except.error` = non-2xx, i.e.
`raise_for_status` raises; `Except.ok` = the service-assigned `name`), the
queue endpoint's answer to a workflow, the history endpoint's answer on the
n-th poll, and the output directory's filesystem (`none` = path does not
exist). Responses are modelled as functions of the request (and, for
polling, of time). -/
structure Env where
  b64decode : String → Option (List Nat)
  uploadResp : String → List Nat → Except String String
  promptResp : Graph → Except String String
  histResp : Nat → HistResp
  fs : String → Option (List Nat)

/-- What an invocation of `handler` does: return `{"outputs": ...}`,
return `{"error": ...}`, or let an exception escape (the last is never a
result object the queue framework receives). -/
inductive Outcome where
  | success (outputs : List Artifact)
  | errorResult (msg : String)
  | raised (msg : String)
deriving DecidableEq, Repr

/-- `true` iff the outcome is one of the two structured result shapes
(`{"outputs": ...}` or `{"error": ...}`), not an escaped exception. -/
def isResultShape : Outcome → Bool
  | Outcome.raised _ => false
  | _ => true

-- ### Constants and path handling

def COMFYUI_PATH : String := "/workspace/ComfyUI"

def POLL_INTERVAL_TICKS : Nat := 1  -- one tick = 0.5 s, the sleep per poll

def TIMEOUT : Nat := 600  -- seconds (10 minutes, video generation is slow)

/-- `os.path.join(a, b)` for POSIX paths, as the code uses it. -/
def pathJoin (a b : String) : String :=
  if b.toList.head? = some '/' then b
  else if a = "" ∨ a.toList.getLast? = some '/' then a ++ b
  else a ++ "/" ++ b

/-- `output_dir = os.path.join(COMFYUI_PATH, "output")`. -/
def output_dir : String := pathJoin COMFYUI_PATH "output"

/-- `os.path.join(output_dir, ref.get("subfolder", ""), ref["filename"])`. -/
def filePathOf (ref : FileRef) : String :=
  pathJoin (pathJoin output_dir (ref.subfolder.getD "")) ref.filename

-- ### base64 encoding (Python's `base64.b64encode(...).decode("utf-8")`)

/-- The standard base64 alphabet character for a 6-bit value. -/
def b64char (n : Nat) : Char :=
  "ABCDEFGHIJKLMNOPQRSTUVWXYZabcdefghijklmnopqrstuvwxyz0123456789+/".toList.getD n 'A'

/-- RFC 4648 base64 encoding of a byte sequence, with `=` padding —
the behaviour of `base64.b64encode` on the file bytes read by
`collect_outputs`. -/
def b64encode : List Nat → String
  | [] => ""
  | [a] => String.mk [b64char (a / 4 % 64), b64char (a % 4 * 16), '=', '=']
  | [a, b] => String.mk [b64char (a / 4 % 64), b64char (a % 4 * 16 + b / 16 % 16), b64char (b % 16 * 4), '=']
  | a :: b :: c :: rest =>
      String.mk [b64char (a / 4 % 64), b64char (a % 4 * 16 + b / 16 % 16),
        b64char (b % 16 * 4 + c / 64 % 4), b64char (c % 64)] ++ b64encode rest

-- ### upload_image

/-- Everything after the first `,` of a character list (the tail of
`s.split(",", 1)`). -/
def dropThroughComma : List Char → List Char
  | [] => []
  | c :: rest => if c = ',' then rest else dropThroughComma rest

/-- The data-URI stripping step of `upload_image`:
`if "," in image_b64: image_b64 = image_b64.split(",", 1)[1]`. -/
def stripDataURI (s : String) : String :=
  if ',' ∈ s.toList then String.mk (dropThroughComma s.toList) else s

/-- `upload_image(image_b64, filename)`: strip any data-URI prefix, decode
the base64 payload (a decoding failure raises, before any request is
made), post the bytes to `/upload/image` and return the service-assigned
`name` (a non-2xx response raises through `raise_for_status`). The second
component is the network trace. -/
def upload_image (env : Env) (image_b64 filename : String) :
    Except String String × List NetCall :=
  let stripped := stripDataURI image_b64
  match env.b64decode stripped with
  | none => (Except.error "Invalid base64-encoded string", [])
  | some image_data =>
      (env.uploadResp filename image_data, [NetCall.uploadImage filename image_data])

-- ### queue_prompt

/-- `queue_prompt(workflow)`: post `{"prompt": workflow, "client_id": uuid}`
to `/prompt` and return `prompt_id` from the response (non-2xx raises).
The fresh `uuid.uuid4()` client id only rides along in the payload and is
not modelled. -/
def queue_prompt (env : Env) (workflow : Graph) : Except String String :=
  env.promptResp workflow

-- ### wait_for_result

/-- The history check of one poll iteration: the entry for `prompt_id`
when the response status is 200 and the body contains the id, else
`none`. -/
def pollHit (hist : Nat → HistResp) (prompt_id : String) (n : Nat) : Option HistRecord :=
  if (hist n).status = 200 then
    ((hist n).body.find? (fun p => p.1 = prompt_id)).map (fun p => p.2)
  else none

/-- The polling loop of `wait_for_result`, with discrete time: iteration
`n` queries `/history/{prompt_id}`; on a hit the entry is returned, else
the loop sleeps one `POLL_INTERVAL` tick and retries while fuel remains.
`fuel` is the number of iterations the `while time.time() - start <
timeout` guard admits. -/
def wait_go (hist : Nat → HistResp) (prompt_id : String) (timeoutMsg : String) :
    Nat → Nat → Except String HistRecord × List NetCall
  | 0, _ => (Except.error timeoutMsg, [])
  | fuel + 1, n =>
      match pollHit hist prompt_id n with
      | some entry => (Except.ok entry, [NetCall.getHistory prompt_id])
      | none =>
          let rest := wait_go hist prompt_id timeoutMsg fuel (n + 1)
          (rest.1, NetCall.getHistory prompt_id :: rest.2)

/-- `wait_for_result(prompt_id, timeout)`: poll every `POLL_INTERVAL`
(0.5 s) while elapsed time is below `timeout` seconds — after `n` sleeps
the elapsed time is `n` ticks = `n / 2` seconds, so exactly `2 * timeout`
iterations are admitted; exhaustion raises
`TimeoutError(f"Job {prompt_id} timed out after {timeout}s")`. -/
def wait_for_result (hist : Nat → HistResp) (prompt_id : String) (timeout : Nat) :
    Except String HistRecord × List NetCall :=
  wait_go hist prompt_id
    ("Job " ++ prompt_id ++ " timed out after " ++ toString timeout ++ "s")
    (2 * timeout) 0

-- ### collect_outputs

/-- One inner `for` loop of `collect_outputs` over one output kind:
for each file reference, if `os.path.join(output_dir, subfolder, filename)`
exists, read it and append an artifact with the given `format` tag to the
accumulated list; otherwise skip it. -/
def collectKindLoop (fs : String → Option (List Nat)) (fmt : String)
    (refs : List FileRef) (acc : List Artifact) : List Artifact :=
  refs.foldl
    (fun outputs ref =>
      match fs (filePathOf ref) with
      | some bytes =>
          outputs ++ [⟨ref.filename, "base64", fmt, b64encode bytes⟩]
      | none => outputs)
    acc

/-- `collect_outputs(history)`: for every node entry of
`history.get("outputs", {})`, run the images loop (format `"image/png"`)
then the videos loop (format `"video/mp4"`), appending to one shared
`outputs` list. -/
def collect_outputs (fs : String → Option (List Nat)) (history : HistRecord) :
    List Artifact :=
  history.outputs.foldl
    (fun outputs node =>
      collectKindLoop fs "video/mp4" node.2.videos
        (collectKindLoop fs "image/png" node.2.images outputs))
    []

-- ### handler

/-- The image-processing loop of `handler`: for each supplied image object,
take `img_obj.get("name", "input_image.jpg")` and `img_obj.get("image", "")`,
upload, then rewrite the workflow's matching LoadImage nodes to the
uploaded name. An upload exception aborts the loop (and, in `handler`,
escapes — the loop is outside the `try` block). -/
def processImages (env : Env) : List ImageObj → Graph → Except String Graph × List NetCall
  | [], workflow => (Except.ok workflow, [])
  | img :: rest, workflow =>
      let filename := img.name.getD "input_image.jpg"
      let b64 := img.image.getD ""
      match upload_image env b64 filename with
      | (Except.error e, t) => (Except.error e, t)
      | (Except.ok uploaded_name, t) =>
          let r := processImages env rest (rewriteGraph filename uploaded_name workflow)
          (r.1, t ++ r.2)

/-- `handler(job)`: validate the workflow (`if not workflow` rejects both a
missing key and an empty dict), process input images (outside the `try`
block: an upload error escapes as `Outcome.raised`), then
`queue_prompt` → `wait_for_result` → `collect_outputs` inside the single
`try/except` that converts any exception into `{"error": str(e)}`. -/
def handler (env : Env) (job : Job) : Outcome × List NetCall :=
  match job.input.workflow with
  | none => (Outcome.errorResult "Missing 'workflow' in input", [])
  | some workflow =>
      if workflow = ([] : Graph) then
        (Outcome.errorResult "Missing 'workflow' in input", [])
      else
        match processImages env job.input.images workflow with
        | (Except.error e, trace) => (Outcome.raised e, trace)
        | (Except.ok wf, trace) =>
            match queue_prompt env wf with
            | Except.error e =>
                (Outcome.errorResult e, trace ++ [NetCall.queuePrompt wf])
            | Except.ok prompt_id =>
                match wait_for_result env.histResp prompt_id TIMEOUT with
                | (Except.error e, polls) =>
                    (Outcome.errorResult e,
                     trace ++ [NetCall.queuePrompt wf] ++ polls)
                | (Except.ok history, polls) =>
                    (Outcome.success (collect_outputs env.fs history),
                     trace ++ [NetCall.queuePrompt wf] ++ polls)

-- ### Spec-side (declarative) formulations, for the refinement claims

/-- Spec-side view of one kind's collection: the artifacts of exactly those
references whose file exists, in record order. -/
def artifactsOfKind (fs : String → Option (List Nat)) (fmt : String)
    (refs : List FileRef) : List Artifact :=
  refs.filterMap
    (fun ref =>
      (fs (filePathOf ref)).map
        (fun bytes => ⟨ref.filename, "base64", fmt, b64encode bytes⟩))

/-- Spec-side view of `collect_outputs` as stated by the spec's ordering
property: nodes in record order; within a node all image artifacts (record
order) precede all video artifacts (record order). -/
def collectSpec (fs : String → Option (List Nat)) (history : HistRecord) :
    List Artifact :=
  history.outputs.foldr
    (fun node acc =>
      artifactsOfKind fs "image/png" node.2.images
        ++ artifactsOfKind fs "video/mp4" node.2.videos ++ acc)
    []

/-- All file references of a history record in collection order, each
tagged with its media-kind format string. -/
def taggedRefs (history : HistRecord) : List (String × FileRef) :=
  history.outputs.foldr
    (fun node acc =>
      node.2.images.map (fun r => ("image/png", r))
        ++ node.2.videos.map (fun r => ("video/mp4", r)) ++ acc)
    []

-- ### Helper lemmas

-- ### Helper lemmas about `getField`/`setField`

theorem getField_setField (l : List (String × FieldVal)) (key : String) (val : FieldVal) :
    getField (setField l key val) key = (getField l key).map (fun _ => val) := by
  induction l with
  | nil => rfl
  | cons p rest ih =>
      obtain ⟨k, v⟩ := p
      by_cases h : k = key
      · simp [getField, setField, h]
      · simp [getField, setField, h, ih]

theorem setField_setField (l : List (String × FieldVal)) (key : String) (val : FieldVal) :
    setField (setField l key val) key val = setField l key val := by
  induction l with
  | nil => rfl
  | cons p rest ih =>
      obtain ⟨k, v⟩ := p
      by_cases h : k = key
      · simp [setField, h, ih]
      · simp [setField, h, ih]

theorem rewriteNode_idem (filename uploaded_name : String) (n : Node) :
    rewriteNode filename uploaded_name (rewriteNode filename uploaded_name n)
      = rewriteNode filename uploaded_name n := by
  cases n with
  | other t => rfl
  | dict ct inputs =>
      by_cases hmatch : ct = some (FieldVal.str "LoadImage") ∧
          (getField (inputs.getD []) "image" = some (FieldVal.str filename) ∨
           getField (inputs.getD []) "image" = some (FieldVal.str "input_image.jpg"))
      · rw [rewriteNode, if_pos hmatch]
        cases inputs with
        | none =>
            rcases hmatch with ⟨-, hv | hv⟩ <;> simp [getField] at hv
        | some fields =>
            simp only [Option.map_some']
            rw [rewriteNode]
            by_cases hmatch2 : ct = some (FieldVal.str "LoadImage") ∧
                (getField ((some (setField fields "image" (FieldVal.str uploaded_name))).getD []) "image"
                    = some (FieldVal.str filename) ∨
                 getField ((some (setField fields "image" (FieldVal.str uploaded_name))).getD []) "image"
                    = some (FieldVal.str "input_image.jpg"))
            · rw [if_pos hmatch2]
              simp [setField_setField]
            · rw [if_neg hmatch2]
      · rw [rewriteNode, if_neg hmatch, rewriteNode, if_neg hmatch]

/-- C3: the per-node rewrite applied twice with the same
(filename, assigned-name) pair equals the rewrite applied once, lifted to
whole graphs. -/
theorem rewriteGraph_idem (filename uploaded_name : String) (g : Graph) :
    rewriteGraph filename uploaded_name (rewriteGraph filename uploaded_name g)
      = rewriteGraph filename uploaded_name g := by
  unfold rewriteGraph
  rw [List.map_map]
  apply List.map_congr_left
  intro p _
  simp [Function.comp, rewriteNode_idem]


theorem rewriteNode_of_not_loadImage (filename uploaded_name : String) (n : Node)
    (h : isLoadImage n = false) : rewriteNode filename uploaded_name n = n := by
  cases n with
  | other t => rfl
  | dict ct inputs =>
      have hct : ¬ ct = some (FieldVal.str "LoadImage") := by
        simpa [isLoadImage] using h
      rw [rewriteNode, if_neg]
      intro hc
      exact hct hc.1

theorem collectKindLoop_eq (fs : String → Option (List Nat)) (fmt : String)
    (refs : List FileRef) (acc : List Artifact) :
    collectKindLoop fs fmt refs acc = acc ++ artifactsOfKind fs fmt refs := by
  induction refs generalizing acc with
  | nil => simp [collectKindLoop, artifactsOfKind]
  | cons r rs ih =>
      rw [collectKindLoop, List.foldl_cons, ← collectKindLoop]
      cases hr : fs (filePathOf r) with
      | none => simp [ih, artifactsOfKind, List.filterMap_cons, hr]
      | some bytes => simp [ih, artifactsOfKind, List.filterMap_cons, hr]

theorem collect_outputs_eq_go (fs : String → Option (List Nat))
    (nodes : List (String × NodeOutput)) (acc : List Artifact) :
    nodes.foldl
        (fun outputs node =>
          collectKindLoop fs "video/mp4" node.2.videos
            (collectKindLoop fs "image/png" node.2.images outputs))
        acc
      = acc ++ nodes.foldr
          (fun node acc =>
            artifactsOfKind fs "image/png" node.2.images
              ++ artifactsOfKind fs "video/mp4" node.2.videos ++ acc)
          [] := by
  induction nodes generalizing acc with
  | nil => simp
  | cons nd rest ih =>
      rw [List.foldl_cons, List.foldr_cons, ih, collectKindLoop_eq, collectKindLoop_eq]
      simp [List.append_assoc]

/-- `collect_outputs` agrees with the spec-side declarative ordering. -/
theorem collect_outputs_eq_spec (fs : String → Option (List Nat)) (history : HistRecord) :
    collect_outputs fs history = collectSpec fs history := by
  rw [collect_outputs, collectSpec, collect_outputs_eq_go]
  simp

theorem wait_go_none (hist : Nat → HistResp) (prompt_id timeoutMsg : String) :
    ∀ (fuel n : Nat), (∀ j, j < fuel → pollHit hist prompt_id (n + j) = none) →
      wait_go hist prompt_id timeoutMsg fuel n
        = (Except.error timeoutMsg, List.replicate fuel (NetCall.getHistory prompt_id)) := by
  intro fuel
  induction fuel with
  | zero => intro n _; rfl
  | succ fuel ih =>
      intro n h
      have h0 : pollHit hist prompt_id n = none := by
        simpa using h 0 (Nat.succ_pos fuel)
      rw [wait_go, h0]
      have hrest := ih (n + 1) (fun j hj => by
        have := h (j + 1) (Nat.succ_lt_succ hj)
        simpa [Nat.add_assoc, Nat.add_comm 1 j] using this)
      rw [hrest]
      simp [List.replicate_succ]

theorem wait_go_found (hist : Nat → HistResp) (prompt_id timeoutMsg : String) :
    ∀ (fuel n k : Nat) (entry : HistRecord), k < fuel →
      pollHit hist prompt_id (n + k) = some entry →
      (∀ j, j < k → pollHit hist prompt_id (n + j) = none) →
      wait_go hist prompt_id timeoutMsg fuel n
        = (Except.ok entry, List.replicate (k + 1) (NetCall.getHistory prompt_id)) := by
  intro fuel
  induction fuel with
  | zero => intro n k entry hk; exact absurd hk (Nat.not_lt_zero k)
  | succ fuel ih =>
      intro n k entry hk hhit hbefore
      cases k with
      | zero =>
          have h0 : pollHit hist prompt_id n = some entry := by simpa using hhit
          rw [wait_go, h0]
          simp [List.replicate]
      | succ k =>
          have h0 : pollHit hist prompt_id n = none := by
            simpa using hbefore 0 (Nat.succ_pos k)
          rw [wait_go, h0]
          have hrec := ih (n + 1) k entry (Nat.lt_of_succ_lt_succ hk)
            (by simpa [Nat.add_assoc, Nat.add_comm 1 k] using hhit)
            (fun j hj => by
              have := hbefore (j + 1) (Nat.succ_lt_succ hj)
              simpa [Nat.add_assoc, Nat.add_comm 1 j] using this)
          rw [hrec]
          simp [List.replicate_succ]

theorem string_toList_append (s t : String) : (s ++ t).toList = s.toList ++ t.toList := by
  cases s
  cases t
  rfl

theorem string_mk_toList (s : String) : String.mk s.toList = s := by
  cases s
  rfl

theorem dropThroughComma_append (l₁ l₂ : List Char) (h : ',' ∉ l₁) :
    dropThroughComma (l₁ ++ ',' :: l₂) = l₂ := by
  induction l₁ with
  | nil => simp [dropThroughComma]
  | cons c rest ih =>
      have hc : ¬ c = ',' := fun hc => h (by simp [hc])
      rw [List.cons_append, dropThroughComma, if_neg hc]
      exact ih (fun hm => h (List.mem_cons_of_mem c hm))

theorem stripDataURI_of_no_comma (s : String) (h : ',' ∉ s.toList) :
    stripDataURI s = s := by
  rw [stripDataURI, if_neg h]

theorem stripDataURI_data_uri (payload : String) :
    stripDataURI ("data:image/jpeg;base64," ++ payload) = payload := by
  have hpre : "data:image/jpeg;base64,".toList
      = "data:image/jpeg;base64".toList ++ [','] := by decide
  have hsplit : ("data:image/jpeg;base64," ++ payload).toList
      = "data:image/jpeg;base64".toList ++ ',' :: payload.toList := by
    rw [string_toList_append, hpre, List.append_assoc, List.singleton_append]
  rw [stripDataURI, if_pos]
  · rw [hsplit, dropThroughComma_append _ _ (by decide), string_mk_toList]
  · rw [hsplit]
    simp

theorem processImages_ok (env : Env)
    (hdec : ∀ s, ∃ bs, env.b64decode s = some bs)
    (hup : ∀ f b, ∃ u, env.uploadResp f b = Except.ok u) :
    ∀ (imgs : List ImageObj) (g : Graph),
      ∃ g' t, processImages env imgs g = (Except.ok g', t) := by
  intro imgs
  induction imgs with
  | nil => exact fun g => ⟨g, [], rfl⟩
  | cons img rest ih =>
      intro g
      obtain ⟨bs, hbs⟩ := hdec (stripDataURI (img.image.getD ""))
      obtain ⟨u, hu⟩ := hup (img.name.getD "input_image.jpg") bs
      have hupl : upload_image env (img.image.getD "") (img.name.getD "input_image.jpg")
          = (Except.ok u,
             [NetCall.uploadImage (img.name.getD "input_image.jpg") bs]) := by
        rw [upload_image, hbs]
        simp [hu]
      obtain ⟨g', t, hrec⟩ :=
        ih (rewriteGraph (img.name.getD "input_image.jpg") u g)
      refine ⟨g', NetCall.uploadImage (img.name.getD "input_image.jpg") bs :: t, ?_⟩
      rw [processImages, hupl]
      simp [hrec]

theorem collectSpec_eq_filterMap (fs : String → Option (List Nat)) (history : HistRecord) :
    collectSpec fs history
      = (taggedRefs history).filterMap
          (fun t => (fs (filePathOf t.2)).map
            (fun bytes => ⟨t.2.filename, "base64", t.1, b64encode bytes⟩)) := by
  rw [collectSpec, taggedRefs]
  induction history.outputs with
  | nil => rfl
  | cons nd rest ih =>
      rw [List.foldr_cons, List.foldr_cons, ih]
      simp [List.filterMap_append, List.filterMap_map, artifactsOfKind, Function.comp_def]

-- ### Claim theorems

/-- C2: for every job input lacking the `workflow` field, `handler` returns
the error result and performs no network call at all (empty network
trace — no upload, no submission, no polling). -/
theorem handler_missing_workflow_no_netcall (env : Env) (job : Job)
    (h : job.input.workflow = none) :
    handler env job = (Outcome.errorResult "Missing 'workflow' in input", []) := by
  rw [handler, h]

theorem handler_missing_workflow_no_netcall_witness :
    handler
        ⟨fun _ => some [], fun _ _ => Except.ok "up.png", fun _ => Except.ok "pid",
         fun _ => ⟨200, []⟩, fun _ => none⟩
        ⟨⟨none, [⟨some "a.jpg", some "QUJD"⟩]⟩⟩
      = (Outcome.errorResult "Missing 'workflow' in input", []) :=
  handler_missing_workflow_no_netcall _ _ rfl

/-- C9: a job whose `workflow` field is present but an empty mapping is
treated exactly like a missing workflow (`if not workflow` is true for the
empty dict): the error result is returned with no network call. -/
theorem handler_empty_workflow_no_netcall (env : Env) (job : Job)
    (h : job.input.workflow = some []) :
    handler env job = (Outcome.errorResult "Missing 'workflow' in input", []) := by
  rw [handler, h]
  simp

theorem handler_empty_workflow_no_netcall_witness :
    handler
        ⟨fun _ => some [], fun _ _ => Except.ok "up.png", fun _ => Except.ok "pid",
         fun _ => ⟨200, []⟩, fun _ => none⟩
        ⟨⟨some [], [⟨some "a.jpg", some "QUJD"⟩]⟩⟩
      = (Outcome.errorResult "Missing 'workflow' in input", []) :=
  handler_empty_workflow_no_netcall _ _ rfl

/-- C4: the rewrite only ever modifies nodes whose `class_type` tag is
`"LoadImage"`; every entry of the graph holding any other node is left
entirely unchanged (same key, same node, same position). -/
theorem rewriteGraph_frame (filename uploaded_name : String) (g : Graph) (i : Nat)
    (h : ∀ k n, g[i]? = some (k, n) → isLoadImage n = false) :
    (rewriteGraph filename uploaded_name g)[i]? = g[i]? := by
  rw [rewriteGraph, List.getElem?_map]
  cases hg : g[i]? with
  | none => rfl
  | some p =>
      obtain ⟨k, n⟩ := p
      rw [Option.map_some']
      rw [rewriteNode_of_not_loadImage _ _ _ (h k n hg)]

theorem rewriteGraph_frame_witness :
    (rewriteGraph "a.jpg" "b.jpg"
        [("1", Node.dict (some (FieldVal.str "KSampler")) (some [("image", FieldVal.str "a.jpg")]))])[0]?
      = ([("1", Node.dict (some (FieldVal.str "KSampler")) (some [("image", FieldVal.str "a.jpg")]))]
          : Graph)[0]? :=
  rewriteGraph_frame "a.jpg" "b.jpg" _ 0
    (by
      intro k n hkn
      injection hkn with hp
      injection hp with hk hn
      rw [← hn]
      rfl)

/-- C5: the result poller returns the history entry of the first poll
iteration whose response is successful (status 200) and contains the
correlation id; if no admitted iteration hits, it fails with a Timeout
error naming the correlation id and the elapsed seconds.  The `while`
guard admits exactly `2 * timeout` iterations (one 0.5 s sleep each), so
on failure the trace shows `2 * timeout` polls and the total waiting is
`timeout` seconds — within one poll-interval of the bound. -/
theorem wait_for_result_first_hit_or_timeout (hist : Nat → HistResp)
    (prompt_id : String) (timeout : Nat) :
    (∀ (k : Nat) (entry : HistRecord), k < 2 * timeout →
        pollHit hist prompt_id k = some entry →
        (∀ j, j < k → pollHit hist prompt_id j = none) →
        wait_for_result hist prompt_id timeout
          = (Except.ok entry, List.replicate (k + 1) (NetCall.getHistory prompt_id)))
  ∧ ((∀ k, k < 2 * timeout → pollHit hist prompt_id k = none) →
        wait_for_result hist prompt_id timeout
          = (Except.error
               ("Job " ++ prompt_id ++ " timed out after " ++ toString timeout ++ "s"),
             List.replicate (2 * timeout) (NetCall.getHistory prompt_id))) := by
  constructor
  · intro k entry hk hhit hbefore
    exact wait_go_found hist prompt_id _ (2 * timeout) 0 k entry hk
      (by simpa using hhit) (fun j hj => by simpa using hbefore j hj)
  · intro hnone
    exact wait_go_none hist prompt_id _ (2 * timeout) 0
      (fun j hj => by simpa using hnone j hj)

theorem wait_for_result_first_hit_or_timeout_witness :
    wait_for_result (fun n => if n = 1 then ⟨200, [("p", ⟨[]⟩)]⟩ else ⟨500, []⟩) "p" 600
      = (Except.ok ⟨[]⟩, List.replicate 2 (NetCall.getHistory "p")) :=
  (wait_for_result_first_hit_or_timeout
      (fun n => if n = 1 then ⟨200, [("p", ⟨[]⟩)]⟩ else ⟨500, []⟩) "p" 600).1
    1 ⟨[]⟩ (by decide) (by decide)
    (fun j hj => by
      interval_cases j
      decide)

/-- C6: `collect_outputs` realises the spec-side ordering — nodes in the
record's own order and, within each node, all image artifacts (record
order, format `"image/png"`) before all video artifacts (record order,
format `"video/mp4"`), each artifact carrying the original filename and
the base64 encoding of the file's bytes; in particular a record with one
node producing one image and one video yields exactly two artifacts,
image first. -/
theorem collect_outputs_order :
    (∀ (fs : String → Option (List Nat)) (history : HistRecord),
        collect_outputs fs history = collectSpec fs history)
  ∧ collect_outputs
        (fun p => if p = "/workspace/ComfyUI/output/img.png" then some [1]
                  else if p = "/workspace/ComfyUI/output/vid.mp4" then some [2] else none)
        ⟨[("9", ⟨[⟨"img.png", none⟩], [⟨"vid.mp4", none⟩]⟩)]⟩
      = [⟨"img.png", "base64", "image/png", "AQ=="⟩,
         ⟨"vid.mp4", "base64", "video/mp4", "Ag=="⟩] := by
  refine ⟨collect_outputs_eq_spec, ?_⟩
  decide

/-- C7: `collect_outputs` never fails on a file that the history record
references but that is absent on disk: the collected artifacts are exactly
those of the references whose path exists, in order — a missing file is
silently omitted and collection continues (witnessed by the concrete
record whose image file is missing but whose video file exists). -/
theorem collect_outputs_skips_missing :
    (∀ (fs : String → Option (List Nat)) (history : HistRecord),
        collect_outputs fs history
          = (taggedRefs history).filterMap
              (fun t => (fs (filePathOf t.2)).map
                (fun bytes => ⟨t.2.filename, "base64", t.1, b64encode bytes⟩)))
  ∧ collect_outputs
        (fun p => if p = "/workspace/ComfyUI/output/vid.mp4" then some [2] else none)
        ⟨[("9", ⟨[⟨"img.png", none⟩], [⟨"vid.mp4", none⟩]⟩)]⟩
      = [⟨"vid.mp4", "base64", "video/mp4", "Ag=="⟩] := by
  constructor
  · intro fs history
    rw [collect_outputs_eq_spec, collectSpec_eq_filterMap]
  · decide

/-- C1 (counterexample): an upload failure is NOT caught at the handler
boundary.  With an image-upload endpoint answering non-2xx (so
`raise_for_status` raises) and a job carrying one input image, `handler`
lets the exception escape instead of returning a `{outputs}`/`{error}`
result: the image loop runs before the `try` block. -/
theorem handler_upload_failure_escapes :
    isResultShape
        (handler
          ⟨fun _ => some [0], fun _ _ => Except.error "400 Client Error: Bad Request",
           fun _ => Except.ok "pid", fun _ => ⟨200, []⟩, fun _ => none⟩
          ⟨⟨some [("1", Node.other 0)], [⟨some "a.jpg", some "QUJD"⟩]⟩⟩).1
      = false := by
  decide

/-- C1 (amended): the `try/except` boundary converts every failure of
submission, polling or collection into the `{error}` result, so whenever
all per-image uploads succeed (every base64 payload decodes and the
upload endpoint answers 2xx) — in particular whenever the job carries no
images — `handler` returns one of the two structured result shapes and
never lets an exception escape.  Upload failures, raised before the `try`
block, are the one per-job failure not caught (see the counterexample). -/
theorem handler_result_shape_of_uploads_ok (env : Env) (job : Job)
    (hdec : ∀ s, ∃ bs, env.b64decode s = some bs)
    (hup : ∀ f b, ∃ u, env.uploadResp f b = Except.ok u) :
    isResultShape (handler env job).1 = true := by
  rw [handler]
  split
  · rfl
  · next workflow hwf =>
      split
      · rfl
      · obtain ⟨g', t, hpi⟩ := processImages_ok env hdec hup job.input.images workflow
        cases hq : queue_prompt env g' with
        | error e => simp [hpi, hq, isResultShape]
        | ok prompt_id =>
            rcases hw : wait_for_result env.histResp prompt_id TIMEOUT with ⟨r, polls⟩
            cases r with
            | error e => simp [hpi, hq, hw, isResultShape]
            | ok history => simp [hpi, hq, hw, isResultShape]

theorem handler_result_shape_of_uploads_ok_witness :
    isResultShape
        (handler
          ⟨fun _ => some [0], fun _ _ => Except.ok "up.png",
           fun _ => Except.ok "pid", fun _ => ⟨200, []⟩, fun _ => none⟩
          ⟨⟨some [("1", Node.other 0)], [⟨some "a.jpg", some "QUJD"⟩]⟩⟩).1
      = true :=
  handler_result_shape_of_uploads_ok _ _
    (fun _ => ⟨[0], rfl⟩) (fun _ _ => ⟨"up.png", rfl⟩)

/-- C8: uploading a data-URI-prefixed image string posts exactly the same
request as uploading the bare payload — the text up to the first comma is
stripped before decoding, so the decoded bytes, the issued network call
and the returned name all coincide. -/
theorem upload_image_data_uri_equiv (env : Env) (payload filename : String)
    (h : ',' ∉ payload.toList) :
    upload_image env ("data:image/jpeg;base64," ++ payload) filename
      = upload_image env payload filename := by
  rw [upload_image, upload_image, stripDataURI_data_uri,
    stripDataURI_of_no_comma payload h]

theorem upload_image_data_uri_equiv_witness :
    upload_image
        ⟨fun _ => some [65, 66, 67], fun _ _ => Except.ok "n.png",
         fun _ => Except.error "", fun _ => ⟨0, []⟩, fun _ => none⟩
        ("data:image/jpeg;base64," ++ "QUJD") "photo.jpg"
      = upload_image
          ⟨fun _ => some [65, 66, 67], fun _ _ => Except.ok "n.png",
           fun _ => Except.error "", fun _ => ⟨0, []⟩, fun _ => none⟩
          "QUJD" "photo.jpg" :=
  upload_image_data_uri_equiv _ "QUJD" "photo.jpg" (by decide)

/-- C10: an input-image object lacking a `"name"` field is uploaded under
the default filename `"input_image.jpg"` — which coincides with the
rewrite's fixed sentinel — and the workflow is then rewritten with that
filename, so every LoadImage node whose image field holds the sentinel is
rebound to the service-assigned name. -/
theorem processImages_default_name (env : Env) (img : ImageObj) (g : Graph) (u : String)
    (hname : img.name = none)
    (hup : (upload_image env (img.image.getD "") "input_image.jpg").1 = Except.ok u) :
    processImages env [img] g
        = (Except.ok (rewriteGraph "input_image.jpg" u g),
           (upload_image env (img.image.getD "") "input_image.jpg").2)
  ∧ ∀ fields, getField fields "image" = some (FieldVal.str "input_image.jpg") →
        rewriteNode "input_image.jpg" u
            (Node.dict (some (FieldVal.str "LoadImage")) (some fields))
          = Node.dict (some (FieldVal.str "LoadImage"))
              (some (setField fields "image" (FieldVal.str u))) := by
  constructor
  · rw [processImages, hname]
    rcases hu2 : upload_image env (img.image.getD "") "input_image.jpg" with ⟨r, t⟩
    rw [hu2] at hup
    simp only [Option.getD_none] at *
    rw [hu2]
    obtain rfl : r = Except.ok u := hup
    simp [processImages]
  · intro fields hf
    rw [rewriteNode, if_pos ⟨rfl, Or.inr (by simpa using hf)⟩]
    rfl

theorem processImages_default_name_witness :
    processImages
        ⟨fun _ => some [3], fun _ _ => Except.ok "renamed.jpg",
         fun _ => Except.error "", fun _ => ⟨0, []⟩, fun _ => none⟩
        [⟨none, some "QUJD"⟩]
        [("1", Node.dict (some (FieldVal.str "LoadImage"))
            (some [("image", FieldVal.str "input_image.jpg")]))]
      = (Except.ok (rewriteGraph "input_image.jpg" "renamed.jpg"
            [("1", Node.dict (some (FieldVal.str "LoadImage"))
                (some [("image", FieldVal.str "input_image.jpg")]))]),
         (upload_image
            ⟨fun _ => some [3], fun _ _ => Except.ok "renamed.jpg",
             fun _ => Except.error "", fun _ => ⟨0, []⟩, fun _ => none⟩
            ((⟨none, some "QUJD"⟩ : ImageObj).image.getD "") "input_image.jpg").2) :=
  (processImages_default_name
      ⟨fun _ => some [3], fun _ _ => Except.ok "renamed.jpg",
       fun _ => Except.error "", fun _ => ⟨0, []⟩, fun _ => none⟩
      ⟨none, some "QUJD"⟩ _ "renamed.jpg" rfl rfl).1
